import Mathlib

/-!
Shallow embedding of the challenge-tracker core (src/app.js): the date
utilities, the localStorage-backed Store (three records: activeChallenge,
completions, archive), the lifecycle functions deriving status and day index,
and the statistics loops of the rendering layer.  JavaScript objects keyed by
integer indices are embedded as association lists with JavaScript update
semantics (overwrite in place if the key exists, append otherwise); the
system clock is an explicit parameter of every time-dependent function.
-/

/-- Milliseconds in one day, the constant 1000 * 60 * 60 * 24 used by
DateUtils.daysBetween (src/app.js:25). -/
def msPerDay : Int := 86400000

/-- DateUtils.daysBetween (src/app.js:23-26): Math.floor((date2 - date1) /
86400000) on millisecond timestamps.  For the positive divisor 86400000,
Lean's Euclidean division on Int is floor division, hence Math.floor. -/
def DateUtils.daysBetween (date1 date2 : Int) : Int :=
  (date2 - date1) / msPerDay

/-- Timestamp (milliseconds) of local midnight of calendar day n in a timezone
whose UTC offset at that midnight is tz n milliseconds (local time equals UTC
plus offset).  This models the values produced by DateUtils.getToday and
DateUtils.parseDate (src/app.js:4-15), which truncate to local midnight; in a
timezone with daylight-saving transitions the offset varies with n, so
consecutive midnights are 23, 24 or 25 hours apart. -/
def midnightTs (tz : Int → Int) (n : Int) : Int :=
  n * msPerDay - tz n

/-- Offset function of a timezone with one spring-forward transition between
day 0 and day 1: the offset grows by one hour, so day 0 lasts 23 hours, as on
the US transition day 2025-03-09. -/
def springForwardTz (n : Int) : Int :=
  if n ≤ 0 then 0 else 3600000

/-- Day difference between two local midnights in a fixed-offset calendar,
where midnights are exactly 24 hours apart; under this idealization
DateUtils.daysBetween on the midnight timestamps equals b - a (lemma
daysBetween_midnight_fixedOffset below).  The lifecycle functions are stated
over calendar-day numbers through this specialization. -/
def daysBetweenDays (a b : Int) : Int := b - a

/-- Task object collected by handleChallengeSubmit (src/app.js:470); the
source name Task is taken by the Lean core, hence the prefixed name. -/
structure ChallengeTask where
  emoji : String
  name : String
  description : String
deriving DecidableEq

/-- Challenge object built by handleChallengeSubmit (src/app.js:484-491).
startDate is represented by the calendar-day number denoted by the stored
YYYY-MM-DD string after DateUtils.parseDate truncation, createdAt by a
timestamp.  Day numbers are order- and difference-faithful to the midnight
timestamps compared by the lifecycle functions. -/
structure Challenge where
  totalDays : Nat
  pointThreshold : Nat
  pointReward : Nat
  tasks : List ChallengeTask
  startDate : Int
  createdAt : Int
deriving DecidableEq

/-- Sparse per-day completion record: a JavaScript object mapping task index
to boolean, embedded as an association list (keys are unique in every state
the Store produces). -/
abbrev DayComp := List (Nat × Bool)

/-- The completions record: a JavaScript object mapping day index to the
per-day record. -/
abbrev Completions := List (Nat × DayComp)

/-- Property read obj[k] on a JavaScript object embedded as an association
list: the value at the first matching key, if any. -/
def lookupKey {β : Type} : List (Nat × β) → Nat → Option β
  | [], _ => none
  | p :: rest, k => if p.1 = k then some p.2 else lookupKey rest k

/-- Property write obj[k] = v on a JavaScript object embedded as an
association list: overwrite in place if the key exists, append otherwise. -/
def setKey {β : Type} : List (Nat × β) → Nat → β → List (Nat × β)
  | [], k, v => [(k, v)]
  | p :: rest, k, v => if p.1 = k then (k, v) :: rest else p :: setKey rest k v

/-- Count of completed tasks in a day record:
Object.values(dayComp).filter(Boolean).length (src/app.js:591, 912, 1058). -/
def countTrue (m : DayComp) : Nat :=
  (m.filter (fun p => p.2)).length

/-- Element pushed onto the archive by Store.archiveChallenge
(src/app.js:84-88): the spread of all challenge fields plus the completions
snapshot and archivedAt; the spread is represented by keeping the whole
Challenge value. -/
structure ArchivedChallenge where
  challenge : Challenge
  completions : Completions
  archivedAt : Int
deriving DecidableEq

/-- The three localStorage records (spec section 6); each is present (some
deserialized value) or absent (none), matching localStorage.getItem returning
null for a missing key. -/
structure StoreState where
  activeChallenge : Option Challenge
  completions : Option Completions
  archive : Option (List ArchivedChallenge)
deriving DecidableEq

/-- Store.getChallenge (src/app.js:38-41): the activeChallenge record, or
null when absent. -/
def Store.getChallenge (s : StoreState) : Option Challenge :=
  s.activeChallenge

/-- Store.saveChallenge (src/app.js:44-46): unconditionally overwrites the
activeChallenge record; no status check is performed here. -/
def Store.saveChallenge (s : StoreState) (c : Challenge) : StoreState :=
  { s with activeChallenge := some c }

/-- Store.getCompletions (src/app.js:49-52): the completions record, an
absent record reading as the empty object. -/
def Store.getCompletions (s : StoreState) : Completions :=
  s.completions.getD []

/-- Store.saveCompletion (src/app.js:55-62): reads the completions record,
creates the day-d object if absent, sets its task-t property to v, and
persists the whole map. -/
def Store.saveCompletion (s : StoreState) (d t : Nat) (v : Bool) : StoreState :=
  { s with completions := some (setKey (Store.getCompletions s) d
      (setKey ((lookupKey (Store.getCompletions s) d).getD []) t v)) }

/-- Store.getDayCompletion (src/app.js:65-68): the day-d record, or the empty
object when the day is absent. -/
def Store.getDayCompletion (s : StoreState) (d : Nat) : DayComp :=
  (lookupKey (Store.getCompletions s) d).getD []

/-- Store.getArchive (src/app.js:71-74): the archive record, an absent record
reading as the empty array. -/
def Store.getArchive (s : StoreState) : List ArchivedChallenge :=
  s.archive.getD []

/-- Store.archiveChallenge (src/app.js:77-93) with the clock made explicit: a
no-op when no challenge exists; otherwise appends the snapshot to the archive
and removes the activeChallenge and completions records. -/
def Store.archiveChallenge (now : Int) (s : StoreState) : StoreState :=
  match s.activeChallenge with
  | none => s
  | some c =>
      { activeChallenge := none
        completions := none
        archive := some (Store.getArchive s ++
          [{ challenge := c, completions := Store.getCompletions s, archivedAt := now }]) }

/-- Store.clearAll (src/app.js:96-99): removes the activeChallenge and
completions records only; the archive record is not touched.  This method is
invoked by confirmDeletePending (src/app.js:1233-1239), the delete-pending
flow of the specification. -/
def Store.clearAll (s : StoreState) : StoreState :=
  { s with activeChallenge := none, completions := none }

/-- Storage effect of confirmClearAll (src/app.js:1241-1250) once the user has
confirmed: localStorage.clear() leaves every record absent.  This flow is the
operation the specification calls clearAll (erase Challenge, CompletionMap and
Archive). -/
def confirmClearAll (_s : StoreState) : StoreState :=
  { activeChallenge := none, completions := none, archive := none }

/-- Store.getCurrentDayIndex (src/app.js:102-111) with the clock made
explicit: Math.max(0, Math.min(daysBetween(startDate, today), totalDays - 1)),
and 0 when no challenge exists. -/
def Store.getCurrentDayIndex (today : Int) (s : StoreState) : Int :=
  match s.activeChallenge with
  | none => 0
  | some c => max 0 (min (daysBetweenDays c.startDate today) ((c.totalDays : Int) - 1))

/-- Derived challenge status (spec section 4.2); null models the absence of a
challenge. -/
inductive ChallengeStatus
  | pending
  | active
  | completed
deriving DecidableEq

/-- Store.getChallengeStatus (src/app.js:114-130) with the clock made
explicit: endDate is startDate advanced by totalDays calendar days (setDate
arithmetic), pending before startDate, completed from endDate on, active in
between. -/
def Store.getChallengeStatus (today : Int) (s : StoreState) : Option ChallengeStatus :=
  match s.activeChallenge with
  | none => none
  | some c =>
      if today < c.startDate then some ChallengeStatus.pending
      else if c.startDate + (c.totalDays : Int) ≤ today then some ChallengeStatus.completed
      else some ChallengeStatus.active

/-- View selected by renderSetupTab (src/app.js:188-230): a read-only summary
for an active challenge, the pre-populated edit form for a pending one, and
the blank creation form otherwise (also when the status is completed). -/
inductive SetupView
  | lockedSummary
  | editForm
  | createForm
deriving DecidableEq

/-- Branch structure of renderSetupTab (src/app.js:188-230); the condition
challenge and status equals active collapses to the status test because a
non-null status implies a non-null challenge. -/
def renderSetupTab (today : Int) (s : StoreState) : SetupView :=
  if Store.getChallengeStatus today s = some ChallengeStatus.active then SetupView.lockedSummary
  else if Store.getChallengeStatus today s = some ChallengeStatus.pending then SetupView.editForm
  else SetupView.createForm

/-- Outcome of a form submission (src/app.js:454-498): the two alert-and-
return validations, or a successful save. -/
inductive SubmitResult
  | emptyTasks
  | thresholdTooHigh
  | saved
deriving DecidableEq

/-- handleChallengeSubmit (src/app.js:454-498) with cfg the challenge object
assembled from the form fields: rejects an empty task list, then a threshold
exceeding the task count, and otherwise saves unconditionally; no status
check occurs anywhere on this path. -/
def handleChallengeSubmit (cfg : Challenge) (s : StoreState) : SubmitResult × StoreState :=
  if cfg.tasks.length = 0 then (SubmitResult.emptyTasks, s)
  else if cfg.tasks.length < cfg.pointThreshold then (SubmitResult.thresholdTooHigh, s)
  else (SubmitResult.saved, Store.saveChallenge s cfg)

/-- Observable completion state of one task on one day:
Store.getDayCompletion(d)[t] || false, the read performed by renderDailyTab
and toggleTask (src/app.js:711, 873). -/
def observedCompletion (s : StoreState) (d t : Nat) : Bool :=
  (lookupKey (Store.getDayCompletion s d) t).getD false

/-- toggleTask (src/app.js:868-877) with the module-level currentDayIndex made
the explicit argument d: a no-op when no challenge exists, otherwise reads the
current value (absent defaulting to false) and writes its negation. -/
def toggleTask (s : StoreState) (d t : Nat) : StoreState :=
  match s.activeChallenge with
  | none => s
  | some _ => Store.saveCompletion s d t (!observedCompletion s d t)

/-- Daily point predicate computed by renderDailyTab (src/app.js:590-594):
the count of true values of getDayCompletion(d) reaches pointThreshold. -/
def dayPointEarned (s : StoreState) (c : Challenge) (d : Nat) : Bool :=
  decide (c.pointThreshold ≤ countTrue (Store.getDayCompletion s d))

/-- Total points shown for the active challenge by renderStatsTab
(src/app.js:907-920): a day i in [0, totalDays) is counted only if its record
is present and non-empty (Object.keys(dayComp).length > 0) and its
completed-task count reaches pointThreshold. -/
def liveTotalPoints (c : Challenge) (cs : Completions) : Nat :=
  (List.range c.totalDays).countP (fun i =>
    let dayComp := (lookupKey cs i).getD []
    !dayComp.isEmpty && decide (c.pointThreshold ≤ countTrue dayComp))

/-- Total points computed for an archived challenge by renderArchiveDetail
(src/app.js:1052-1065) and by the archive list of renderStatsTab
(src/app.js:1001-1008): every day i in [0, totalDays) is examined, a missing
record counting as zero completions. -/
def archivedTotalPoints (a : ArchivedChallenge) : Nat :=
  (List.range a.challenge.totalDays).countP (fun i =>
    decide (a.challenge.pointThreshold ≤ countTrue ((lookupKey a.completions i).getD [])))

/-- Concrete task used by the witness states. -/
def exTask : ChallengeTask := ⟨"a", "run", ""⟩

/-- Concrete three-day challenge starting on day 10 with threshold 1. -/
def exChallenge : Challenge := ⟨3, 1, 1, [exTask], 10, 0⟩

/-- State holding exChallenge with no completions and no archive. -/
def exActiveState : StoreState := ⟨some exChallenge, none, none⟩

/-- Edited copy of exChallenge with a different duration. -/
def exEditedChallenge : Challenge := ⟨5, 1, 1, [exTask], 10, 0⟩

/-- State holding exChallenge with task 0 of day 0 completed. -/
def exDoneState : StoreState := ⟨some exChallenge, some [(0, [(0, true)])], none⟩

/-- Pre-existing archive element used by the archive witness. -/
def exArchivedEntry : ArchivedChallenge := ⟨exChallenge, [], 3⟩

/-- State with a challenge, completions and a non-empty archive. -/
def exFullState : StoreState :=
  ⟨some exChallenge, some [(0, [(0, true)])], some [exArchivedEntry]⟩

/-- Two-day challenge used by the statistics witness. -/
def exC4Challenge : Challenge := ⟨2, 1, 1, [exTask], 20, 0⟩

/-- Completion map with a record for every day of exC4Challenge. -/
def exC4Completions : Completions := [(0, [(0, true), (1, true)]), (1, [(0, false)])]

theorem lookupKey_setKey_self {β : Type} (m : List (Nat × β)) (k : Nat) (v : β) :
    lookupKey (setKey m k v) k = some v := by
  induction m with
  | nil => simp [setKey, lookupKey]
  | cons p rest ih =>
      by_cases h : p.1 = k
      · simp [setKey, h, lookupKey]
      · simp [setKey, h, lookupKey, ih]

theorem lookupKey_setKey_ne {β : Type} (m : List (Nat × β)) (k k' : Nat) (v : β)
    (h : k' ≠ k) : lookupKey (setKey m k v) k' = lookupKey m k' := by
  induction m with
  | nil =>
      simp only [setKey, lookupKey]
      rw [if_neg (fun e => h e.symm)]
  | cons p rest ih =>
      by_cases hp : p.1 = k
      · simp [setKey, hp, lookupKey, Ne.symm h]
      · simp [setKey, hp, lookupKey, ih]

theorem getCompletions_saveCompletion (s : StoreState) (d t : Nat) (v : Bool) :
    Store.getCompletions (Store.saveCompletion s d t v)
      = setKey (Store.getCompletions s) d (setKey (Store.getDayCompletion s d) t v) := rfl

theorem getDayCompletion_saveCompletion_self (s : StoreState) (d t : Nat) (v : Bool) :
    Store.getDayCompletion (Store.saveCompletion s d t v) d
      = setKey (Store.getDayCompletion s d) t v := by
  unfold Store.getDayCompletion
  rw [getCompletions_saveCompletion, lookupKey_setKey_self]
  rfl

theorem getDayCompletion_saveCompletion_ne (s : StoreState) (d t : Nat) (v : Bool)
    (d' : Nat) (hd : d' ≠ d) :
    Store.getDayCompletion (Store.saveCompletion s d t v) d'
      = Store.getDayCompletion s d' := by
  unfold Store.getDayCompletion
  rw [getCompletions_saveCompletion, lookupKey_setKey_ne _ _ _ _ hd]

theorem toggleTask_eq_of_some (s : StoreState) (c : Challenge) (d t : Nat)
    (h : s.activeChallenge = some c) :
    toggleTask s d t = Store.saveCompletion s d t (!observedCompletion s d t) := by
  unfold toggleTask
  rw [h]

theorem daysBetween_midnight_fixedOffset (o a b : Int) :
    DateUtils.daysBetween (midnightTs (fun _ => o) a) (midnightTs (fun _ => o) b)
      = daysBetweenDays a b := by
  simp only [DateUtils.daysBetween, midnightTs, daysBetweenDays, msPerDay]
  omega

/-- Supporting fact for the clearAll mapping: the Store method clearAll clears
the activeChallenge and completions records but leaves the archive record
untouched (it serves the delete-pending flow). -/
theorem clearAll_method_keeps_archive (s : StoreState) :
    (Store.clearAll s).activeChallenge = none ∧
    (Store.clearAll s).completions = none ∧
    (Store.clearAll s).archive = s.archive :=
  ⟨rfl, rfl, rfl⟩

/-- C1: the clear-all operation (the Clear All Data flow, confirmClearAll,
which erases storage via localStorage.clear()) unconditionally leaves the
activeChallenge record absent and the completions and archive records empty,
for every stored state. -/
theorem confirmClearAll_erases_all_records (s : StoreState) :
    Store.getChallenge (confirmClearAll s) = none ∧
    Store.getCompletions (confirmClearAll s) = [] ∧
    Store.getArchive (confirmClearAll s) = [] :=
  ⟨rfl, rfl, rfl⟩

/-- C2 counterexample: on a state whose challenge has derived status active, a
submitted edit does not fail with any LockedError; it returns the saved
outcome and the stored Challenge is changed by the attempt. -/
theorem editChallenge_no_lock_cex :
    Store.getChallengeStatus 10 exActiveState = some ChallengeStatus.active ∧
    (handleChallengeSubmit exEditedChallenge exActiveState).1 = SubmitResult.saved ∧
    Store.getChallenge (handleChallengeSubmit exEditedChallenge exActiveState).2
      ≠ Store.getChallenge exActiveState := by
  decide

/-- C2 (amended): no LockedError exists in the code.  A submission passing the
two form validations always saves and overwrites the stored Challenge,
whatever the derived status; editing is prevented only at the rendering
layer, where an active challenge gets a read-only summary instead of a form,
while a completed challenge gets the blank creation form (so a submit there
likewise overwrites). -/
theorem editChallenge_lock_is_ui_only (s : StoreState) (cfg : Challenge) (today : Int)
    (hne : cfg.tasks.length ≠ 0) (hth : cfg.pointThreshold ≤ cfg.tasks.length) :
    (handleChallengeSubmit cfg s).1 = SubmitResult.saved ∧
    Store.getChallenge (handleChallengeSubmit cfg s).2 = some cfg ∧
    (Store.getChallengeStatus today s = some ChallengeStatus.active →
      renderSetupTab today s = SetupView.lockedSummary) ∧
    (Store.getChallengeStatus today s = some ChallengeStatus.completed →
      renderSetupTab today s = SetupView.createForm) := by
  refine ⟨?_, ?_, fun h => ?_, fun h => ?_⟩
  · unfold handleChallengeSubmit
    rw [if_neg hne, if_neg (by omega)]
  · unfold handleChallengeSubmit
    rw [if_neg hne, if_neg (by omega)]
    rfl
  · unfold renderSetupTab
    rw [if_pos h]
  · simp [renderSetupTab, h]

/-- C2 witness: a concrete valid submission on a concrete active state saves,
and the setup tab for that state shows the locked summary. -/
theorem editChallenge_lock_is_ui_only_witness :
    (handleChallengeSubmit exEditedChallenge exActiveState).1 = SubmitResult.saved ∧
    renderSetupTab 10 exActiveState = SetupView.lockedSummary := by
  refine ⟨(editChallenge_lock_is_ui_only exActiveState exEditedChallenge 10
      (by decide) (by decide)).1,
    (editChallenge_lock_is_ui_only exActiveState exEditedChallenge 10
      (by decide) (by decide)).2.2.1 (by decide)⟩

/-- C3: archiving a present challenge leaves the challenge slot empty and the
completions empty, grows the archive by exactly one element, makes its last
element the snapshot of the pre-archive challenge (tasks, thresholds and all
other fields) together with the exact pre-archive completion map and the
archiving timestamp, and leaves every previously existing archive element
unchanged in its original position. -/
theorem archiveChallenge_clean_cut (now : Int) (s : StoreState) (c : Challenge)
    (hc : s.activeChallenge = some c) :
    Store.getChallenge (Store.archiveChallenge now s) = none ∧
    Store.getCompletions (Store.archiveChallenge now s) = [] ∧
    (Store.getArchive (Store.archiveChallenge now s)).length
      = (Store.getArchive s).length + 1 ∧
    (Store.getArchive (Store.archiveChallenge now s)).getLast?
      = some ⟨c, Store.getCompletions s, now⟩ ∧
    ∀ i, i < (Store.getArchive s).length →
      (Store.getArchive (Store.archiveChallenge now s))[i]?
        = (Store.getArchive s)[i]? := by
  have ha : Store.archiveChallenge now s
      = ⟨none, none, some (Store.getArchive s ++ [⟨c, Store.getCompletions s, now⟩])⟩ := by
    unfold Store.archiveChallenge
    rw [hc]
  refine ⟨?_, ?_, ?_, ?_, ?_⟩
  · rw [ha]; rfl
  · rw [ha]; rfl
  · rw [ha]; simp [Store.getArchive]
  · rw [ha]; simp [Store.getArchive, List.getLast?_concat]
  · intro i hi
    rw [ha]
    show (Store.getArchive s ++ [(⟨c, Store.getCompletions s, now⟩ : ArchivedChallenge)])[i]?
      = (Store.getArchive s)[i]?
    rw [List.getElem?_append_left hi]

/-- C3 witness: archiving a concrete state with one pre-existing archive entry
empties the challenge slot, appends the snapshot as the last element, and
keeps the old entry at position 0. -/
theorem archiveChallenge_clean_cut_witness :
    Store.getChallenge (Store.archiveChallenge 9 exFullState) = none ∧
    (Store.getArchive (Store.archiveChallenge 9 exFullState)).getLast?
      = some ⟨exChallenge, Store.getCompletions exFullState, 9⟩ ∧
    (Store.getArchive (Store.archiveChallenge 9 exFullState))[0]?
      = (Store.getArchive exFullState)[0]? := by
  have h := archiveChallenge_clean_cut 9 exFullState exChallenge rfl
  exact ⟨h.1, h.2.2.2.1, h.2.2.2.2 0 (by decide)⟩

/-- C4: with the data-model invariant pointThreshold at least 1, the live
totalPoints counts exactly the days whose completion entry is present and
meets the threshold, the archived totalPoints counts every day in
[0, totalDays) meeting the threshold regardless of record presence, and the
two computations agree whenever every day in [0, totalDays) has a stored
record. -/
theorem totalPoints_policies (c : Challenge) (cs : Completions) (archivedAt : Int)
    (hθ : 1 ≤ c.pointThreshold) :
    liveTotalPoints c cs
      = (List.range c.totalDays).countP (fun d =>
          (lookupKey cs d).isSome
            && decide (c.pointThreshold ≤ countTrue ((lookupKey cs d).getD []))) ∧
    archivedTotalPoints ⟨c, cs, archivedAt⟩
      = (List.range c.totalDays).countP (fun d =>
          decide (c.pointThreshold ≤ countTrue ((lookupKey cs d).getD []))) ∧
    ((∀ d, d < c.totalDays → (lookupKey cs d).isSome = true) →
        liveTotalPoints c cs = archivedTotalPoints ⟨c, cs, archivedAt⟩) := by
  refine ⟨?_, rfl, ?_⟩
  · unfold liveTotalPoints
    refine List.countP_congr ?_
    intro d _
    cases hm : lookupKey cs d with
    | none => simp [hm]
    | some m =>
        cases m with
        | nil =>
            simp [hm, countTrue]
            omega
        | cons p rest => simp [hm, countTrue]
  · intro hall
    unfold liveTotalPoints archivedTotalPoints
    refine List.countP_congr ?_
    intro d hd
    have hs : (lookupKey cs d).isSome = true := hall d (List.mem_range.mp hd)
    cases hm : lookupKey cs d with
    | none => rw [hm] at hs; simp at hs
    | some m =>
        cases m with
        | nil =>
            simp [hm, countTrue]
            omega
        | cons p rest => simp [hm, countTrue]

/-- C4 witness: on a concrete challenge whose completion map has a record for
every day, the live and archived totalPoints coincide. -/
theorem totalPoints_policies_witness :
    liveTotalPoints exC4Challenge exC4Completions
      = archivedTotalPoints ⟨exC4Challenge, exC4Completions, 0⟩ :=
  (totalPoints_policies exC4Challenge exC4Completions 0 (by decide)).2.2 (by decide)

/-- C5: for a stored challenge with totalDays at least 1, the derived status
is pending exactly when today is before startDate, completed exactly when
today has reached startDate plus totalDays days, active exactly in between;
in particular the status on the very day of startDate is active, and with
startDate one day in the future it is pending. -/
theorem getChallengeStatus_spec (today : Int) (s : StoreState) (c : Challenge)
    (hc : s.activeChallenge = some c) (hd : 1 ≤ c.totalDays) :
    (Store.getChallengeStatus today s = some ChallengeStatus.pending
        ↔ today < c.startDate) ∧
    (Store.getChallengeStatus today s = some ChallengeStatus.completed
        ↔ c.startDate + (c.totalDays : Int) ≤ today) ∧
    (Store.getChallengeStatus today s = some ChallengeStatus.active
        ↔ (c.startDate ≤ today ∧ today < c.startDate + (c.totalDays : Int))) ∧
    (today = c.startDate →
        Store.getChallengeStatus today s = some ChallengeStatus.active) ∧
    (c.startDate = today + 1 →
        Store.getChallengeStatus today s = some ChallengeStatus.pending) := by
  have hs : Store.getChallengeStatus today s
      = if today < c.startDate then some ChallengeStatus.pending
        else if c.startDate + (c.totalDays : Int) ≤ today then some ChallengeStatus.completed
        else some ChallengeStatus.active := by
    unfold Store.getChallengeStatus
    rw [hc]
  refine ⟨?_, ?_, ?_, fun ht => ?_, fun ht => ?_⟩ <;> rw [hs]
  · split_ifs with h1 h2 <;> simp <;> omega
  · split_ifs with h1 h2 <;> simp <;> omega
  · split_ifs with h1 h2 <;> simp <;> omega
  · rw [if_neg (by omega), if_neg (by omega)]
  · rw [if_pos (by omega)]

/-- C5 witness: the concrete challenge starting on day 10 is active when
queried on day 10 and pending when queried on day 9. -/
theorem getChallengeStatus_spec_witness :
    Store.getChallengeStatus 10 exActiveState = some ChallengeStatus.active ∧
    Store.getChallengeStatus 9 exActiveState = some ChallengeStatus.pending := by
  have h1 := getChallengeStatus_spec 10 exActiveState exChallenge rfl (by decide)
  have h2 := getChallengeStatus_spec 9 exActiveState exChallenge rfl (by decide)
  exact ⟨h1.2.2.2.1 (by decide), h2.2.2.2.2 (by decide)⟩

/-- C6: for a stored challenge with totalDays at least 1,
getCurrentDayIndex equals the day difference from startDate to today clamped
into [0, totalDays - 1] and therefore always lies in that interval, however
far before or past startDate today is; on a state without a challenge it
returns 0. -/
theorem getCurrentDayIndex_clamped (today : Int) (s : StoreState) (c : Challenge)
    (hc : s.activeChallenge = some c) (hd : 1 ≤ c.totalDays) :
    Store.getCurrentDayIndex today s
        = max 0 (min (daysBetweenDays c.startDate today) ((c.totalDays : Int) - 1)) ∧
    0 ≤ Store.getCurrentDayIndex today s ∧
    Store.getCurrentDayIndex today s ≤ (c.totalDays : Int) - 1 ∧
    Store.getCurrentDayIndex today ⟨none, s.completions, s.archive⟩ = 0 := by
  have he : Store.getCurrentDayIndex today s
      = max 0 (min (daysBetweenDays c.startDate today) ((c.totalDays : Int) - 1)) := by
    unfold Store.getCurrentDayIndex
    rw [hc]
  refine ⟨he, ?_, ?_, rfl⟩
  · rw [he]; omega
  · rw [he]; omega

/-- C6 witness: on the concrete three-day challenge starting on day 10, the
index queried far past the start is still within [0, totalDays - 1]. -/
theorem getCurrentDayIndex_clamped_witness :
    0 ≤ Store.getCurrentDayIndex 500 exActiveState ∧
    Store.getCurrentDayIndex 500 exActiveState ≤ (exChallenge.totalDays : Int) - 1 := by
  have h := getCurrentDayIndex_clamped 500 exActiveState exChallenge rfl (by decide)
  exact ⟨h.2.1, h.2.2.1⟩

/-- C7: dayPointEarned holds exactly when the completed-task count of the day
reaches pointThreshold, the boundary being inclusive: a count equal to the
threshold earns the point and a count one below does not. -/
theorem dayPointEarned_threshold (s : StoreState) (c : Challenge) (d : Nat) :
    (dayPointEarned s c d = true
        ↔ c.pointThreshold ≤ countTrue (Store.getDayCompletion s d)) ∧
    (countTrue (Store.getDayCompletion s d) = c.pointThreshold →
        dayPointEarned s c d = true) ∧
    (countTrue (Store.getDayCompletion s d) + 1 = c.pointThreshold →
        dayPointEarned s c d = false) := by
  unfold dayPointEarned
  refine ⟨by simp, fun h => by simp [h], fun h => by simp; omega⟩

/-- C7 witness: with threshold 1, a day with one completed task earns the
point (count equal to threshold) and a day with none does not (count one
below threshold). -/
theorem dayPointEarned_threshold_witness :
    dayPointEarned exDoneState exChallenge 0 = true ∧
    dayPointEarned exActiveState exChallenge 0 = false :=
  ⟨(dayPointEarned_threshold exDoneState exChallenge 0).2.1 (by decide),
   (dayPointEarned_threshold exActiveState exChallenge 0).2.2 (by decide)⟩

/-- C8: after setCompletion(d, t, true) the day-d record holds true at t, and
toggling the same entry twice in succession returns its observable completion
state to the original value, for every stored state. -/
theorem setCompletion_read_then_double_toggle (s : StoreState) (d t : Nat) :
    lookupKey (Store.getDayCompletion (Store.saveCompletion s d t true) d) t
      = some true ∧
    observedCompletion (toggleTask (toggleTask s d t) d t) d t
      = observedCompletion s d t := by
  constructor
  · rw [getDayCompletion_saveCompletion_self, lookupKey_setKey_self]
  · cases hch : s.activeChallenge with
    | none =>
        have h1 : toggleTask s d t = s := by
          unfold toggleTask
          rw [hch]
        rw [h1, h1]
    | some c =>
        have hch2 : (toggleTask s d t).activeChallenge = some c := by
          rw [toggleTask_eq_of_some s c d t hch]
          exact hch
        have hobs1 : observedCompletion (toggleTask s d t) d t
            = !observedCompletion s d t := by
          rw [toggleTask_eq_of_some s c d t hch]
          unfold observedCompletion
          rw [getDayCompletion_saveCompletion_self, lookupKey_setKey_self]
          rfl
        rw [toggleTask_eq_of_some (toggleTask s d t) c d t hch2, hobs1, Bool.not_not]
        unfold observedCompletion
        rw [getDayCompletion_saveCompletion_self, lookupKey_setKey_self]
        rfl

/-- C9 counterexample: across a spring-forward transition the midnights of
consecutive calendar days are 23 hours apart, and daysBetween on them returns
0 instead of the calendar-day difference 1: truncation to midnight does not
make the floor-based count exact across daylight-saving transitions. -/
theorem daysBetween_springForward_cex :
    DateUtils.daysBetween (midnightTs springForwardTz 0) (midnightTs springForwardTz 1)
      ≠ 1 - 0 ∧
    DateUtils.daysBetween (midnightTs springForwardTz 0) (midnightTs springForwardTz 1)
      = 0 := by
  decide

/-- C9 (amended): daysBetween computes the floor of the midnight-timestamp
difference over 86400000 ms, and this equals the calendar-day difference b - a
whenever the UTC offset at the end midnight does not exceed the offset at the
start midnight (no spring-forward in between; fall-back transitions and
fixed-offset calendars qualify) and the offsets differ by less than one day;
across a spring-forward transition it undercounts by one. -/
theorem daysBetween_exact_of_offset_nonincreasing (tz : Int → Int) (a b : Int)
    (h1 : tz b ≤ tz a) (h2 : tz a - tz b < msPerDay) :
    DateUtils.daysBetween (midnightTs tz a) (midnightTs tz b) = b - a := by
  simp only [DateUtils.daysBetween, midnightTs, msPerDay] at h2 ⊢
  omega

/-- C9 witness: in a fixed-offset timezone the count is exact. -/
theorem daysBetween_exact_witness :
    DateUtils.daysBetween (midnightTs (fun _ => 0) 3) (midnightTs (fun _ => 0) 10)
      = 10 - 3 :=
  daysBetween_exact_of_offset_nonincreasing (fun _ => 0) 3 10 (by decide) (by decide)

/-- C10: saveCompletion(d, t, v) leaves the activeChallenge and archive
records unchanged, and within the completions record changes only the entry
at (d, t): the value observed at every other pair (d', t') is unchanged. -/
theorem saveCompletion_frame (s : StoreState) (d t d' t' : Nat) (v : Bool)
    (h : ¬(d' = d ∧ t' = t)) :
    (Store.saveCompletion s d t v).activeChallenge = s.activeChallenge ∧
    (Store.saveCompletion s d t v).archive = s.archive ∧
    observedCompletion (Store.saveCompletion s d t v) d' t'
      = observedCompletion s d' t' := by
  refine ⟨rfl, rfl, ?_⟩
  unfold observedCompletion
  by_cases hd : d' = d
  · subst hd
    have ht : t' ≠ t := fun ht => h ⟨rfl, ht⟩
    rw [getDayCompletion_saveCompletion_self, lookupKey_setKey_ne _ _ _ _ ht]
  · rw [getDayCompletion_saveCompletion_ne s d t v d' hd]

/-- C10 witness: writing task 1 of day 0 leaves the observed value of task 0
of day 0 and the archive record unchanged in a concrete state. -/
theorem saveCompletion_frame_witness :
    observedCompletion (Store.saveCompletion exDoneState 0 1 true) 0 0
      = observedCompletion exDoneState 0 0 ∧
    (Store.saveCompletion exDoneState 0 1 true).archive = exDoneState.archive := by
  have h := saveCompletion_frame exDoneState 0 1 0 0 true (by decide)
  exact ⟨h.2.2, h.2.1⟩
